import Mathlib

/-!
Verification development for a chat front-end that curates a knowledge base of
URLs and uploaded files (grouped into named URL groups) and queries a hosted
LLM service with that context.

The definitions below are a shallow embedding of the program's logic:
* the knowledge-base store handlers (`handleAddUrl`, `handleRemoveUrl`,
  `handleAddFiles`, `handleRemoveFile`, `handleFileChange`) from
  `src/components/KnowledgeBaseManager.tsx`,
* the LLM gateway (`buildGenerateRequest`, `generateResult`,
  `formatGeminiError`) from `src/services/geminiService.ts`,
* the file encoder (`fileToPart`), the suggestion-JSON parsing pipeline
  (`fenceMatch`, `jsonParse`, `suggestionsFromText`), the submit guard
  (`handleSendMessageStart`) and the welcome-message effect (`applyStoreOp`).

JavaScript strings are modelled as Lean `String`; platform string helpers
(`trim`, `toLowerCase`, `includes`, `split`, `startsWith`) are given explicit
executable models over `List Char` (`jsTrim`, `jsToLower`, `strIncludes`,
`jsSplitChar`, `strStartsWith`) that agree with the platform on the ASCII
inputs the program manipulates.  `JSON.parse` is modelled by a fuel-indexed
recursive-descent parser `jsonParse` over a `Json` value type; the two regular
expressions used by the program (the code-fence stripper and the bracket
cleanup in error formatting) are modelled by direct procedural equivalents.
Absent (`undefined`) JavaScript values are modelled with `Option`.
-/

/-! ## String utilities modelling the JavaScript platform functions -/

/-- JavaScript whitespace (`\s`, `trim`): ASCII whitespace plus NBSP and BOM. -/
def isJsWhite (c : Char) : Bool :=
  c = ' ' || c = '\t' || c = '\n' || c = '\r' || c = '\x0b' || c = '\x0c' ||
  c = '\xa0' || c = '﻿'

def dropTrailingJsWhite (cs : List Char) : List Char :=
  (cs.reverse.dropWhile isJsWhite).reverse

/-- Model of `String.prototype.trim`. -/
def jsTrim (s : String) : String :=
  ⟨dropTrailingJsWhite (s.data.dropWhile isJsWhite)⟩

/-- ASCII lower-casing of one character (`String.prototype.toLowerCase` on
the ASCII messages this program manipulates). -/
def lowerChar (c : Char) : Char :=
  if 'A' ≤ c ∧ c ≤ 'Z' then Char.ofNat (c.toNat + 32) else c

/-- Model of `String.prototype.toLowerCase` (ASCII range). -/
def jsToLower (s : String) : String :=
  ⟨s.data.map lowerChar⟩

/-- Does `needle` occur as a contiguous run inside the character list? -/
def charsContain (needle : List Char) : List Char → Bool
  | [] => needle.isEmpty
  | c :: rest => needle.isPrefixOf (c :: rest) || charsContain needle rest

/-- Model of `String.prototype.includes`. -/
def strIncludes (hay needle : String) : Bool :=
  charsContain needle.data hay.data

/-- Model of `String.prototype.startsWith`. -/
def strStartsWith (s pre : String) : Bool :=
  pre.data.isPrefixOf s.data

def jsSplitCharAux (sep : Char) : List Char → List Char → List String
  | [], acc => [⟨acc.reverse⟩]
  | x :: xs, acc =>
    if x = sep then ⟨acc.reverse⟩ :: jsSplitCharAux sep xs []
    else jsSplitCharAux sep xs (x :: acc)

/-- Model of `String.prototype.split` with a one-character separator. -/
def jsSplitChar (sep : Char) (s : String) : List String :=
  jsSplitCharAux sep s.data []

/-- Model of `Array.prototype.join` / `urls.join('\n')`. -/
def jsJoin (sep : String) : List String → String
  | [] => ""
  | [x] => x
  | x :: y :: xs => x ++ sep ++ jsJoin sep (y :: xs)

/-! ## Data model: files, URL groups, chat messages -/

/-- A browser `File` handle as the program observes it.  `dataUrl` models what
`FileReader.readAsDataURL` yields for the file's bytes and `textContent` what
`FileReader.readAsText` yields; both readers are browser primitives. -/
structure FileData where
  name : String
  size : Nat
  type : String
  dataUrl : String
  textContent : String
deriving DecidableEq

structure URLGroup where
  id : String
  name : String
  urls : List String
  files : List FileData
deriving DecidableEq

inductive MessageSender where
  | user
  | model
  | system
deriving DecidableEq

structure ChatMessage where
  id : String
  text : String
  sender : MessageSender
  timestamp : Nat
  isLoading : Bool := false
deriving DecidableEq

def MAX_URLS : Nat := 20

def MAX_FILES : Nat := 50

/-! ## Knowledge Base Store mutations (App handlers, KnowledgeBaseManager.tsx) -/

/-- One group's view of `handleAddUrl`'s updater: add the URL to the active
group when it is below capacity and does not already contain the URL. -/
def addUrlToGroup (activeUrlGroupId url : String) (group : URLGroup) : URLGroup :=
  if group.id = activeUrlGroupId then
    if group.urls.length < MAX_URLS ∧ url ∉ group.urls then
      { group with urls := group.urls ++ [url] }
    else group
  else group

/-- `handleAddUrl` (App): `setUrlGroups(prev => prev.map(...))`. -/
def handleAddUrl (activeUrlGroupId url : String) (groups : List URLGroup) : List URLGroup :=
  groups.map (addUrlToGroup activeUrlGroupId url)

def removeUrlFromGroup (activeUrlGroupId urlToRemove : String) (group : URLGroup) : URLGroup :=
  if group.id = activeUrlGroupId then
    { group with urls := group.urls.filter (fun url => url ≠ urlToRemove) }
  else group

/-- `handleRemoveUrl` (App). -/
def handleRemoveUrl (activeUrlGroupId urlToRemove : String) (groups : List URLGroup) : List URLGroup :=
  groups.map (removeUrlFromGroup activeUrlGroupId urlToRemove)

/-- One group's view of `handleAddFiles`'s updater: append the new files and
truncate to `MAX_FILES` when the combined list would exceed the cap. -/
def addFilesToGroup (activeUrlGroupId : String) (newFiles : List FileData) (group : URLGroup) : URLGroup :=
  if group.id = activeUrlGroupId then
    if (group.files ++ newFiles).length > MAX_FILES then
      { group with files := (group.files ++ newFiles).take MAX_FILES }
    else
      { group with files := group.files ++ newFiles }
  else group

/-- `handleAddFiles` (App). -/
def handleAddFiles (activeUrlGroupId : String) (newFiles : List FileData) (groups : List URLGroup) : List URLGroup :=
  groups.map (addFilesToGroup activeUrlGroupId newFiles)

def removeFileFromGroup (activeUrlGroupId fileName : String) (group : URLGroup) : URLGroup :=
  if group.id = activeUrlGroupId then
    { group with files := group.files.filter (fun f => f.name ≠ fileName) }
  else group

/-- `handleRemoveFile` (App). -/
def handleRemoveFile (activeUrlGroupId fileName : String) (groups : List URLGroup) : List URLGroup :=
  groups.map (removeFileFromGroup activeUrlGroupId fileName)

/-- `currentFilesForChat` (App): the active group's file list, `[]` when the
active id resolves to no group.  This is also the `files` prop handed to
`KnowledgeBaseManager`. -/
def currentFilesForChat (groups : List URLGroup) (activeUrlGroupId : String) : List FileData :=
  match groups.find? (fun g => g.id == activeUrlGroupId) with
  | some g => g.files
  | none => []

/-- `handleFileChange` (KnowledgeBaseManager) composed with the `onAddFiles`
callback (`handleAddFiles`): de-duplicate the selected files by name against
the active group's current files, then hand the unique ones to the store. -/
def handleFileChange (activeUrlGroupId : String) (selected : List FileData) (groups : List URLGroup) : List URLGroup :=
  if selected.length > 0 then
    let files := currentFilesForChat groups activeUrlGroupId
    let existingNames := files.map FileData.name
    let uniqueFiles := selected.filter (fun f => !(existingNames.contains f.name))
    if uniqueFiles.length > 0 then handleAddFiles activeUrlGroupId uniqueFiles groups
    else groups
  else groups

/-- The add operations of the store (claim C1 ranges over sequences of these). -/
inductive AddOp where
  | addUrl (url : String)
  | addFiles (files : List FileData)

def applyAddOp (activeUrlGroupId : String) (op : AddOp) (groups : List URLGroup) : List URLGroup :=
  match op with
  | .addUrl url => handleAddUrl activeUrlGroupId url groups
  | .addFiles fs => handleAddFiles activeUrlGroupId fs groups

def applyAddOps (activeUrlGroupId : String) (ops : List AddOp) (groups : List URLGroup) : List URLGroup :=
  ops.foldl (fun gs op => applyAddOp activeUrlGroupId op gs) groups

/-- Group bound invariant from the spec's data model. -/
def groupBounded (g : URLGroup) : Prop :=
  g.urls.length ≤ MAX_URLS ∧ g.files.length ≤ MAX_FILES

def storeBounded (groups : List URLGroup) : Prop :=
  ∀ g ∈ groups, groupBounded g

/-! ## File Encoder (`fileToPart`, App) -/

inductive ContentPart where
  | text (text : String)
  | inlineData (mimeType : String) (data : String)
deriving DecidableEq

/-- `readFileAsBase64` (App): `FileReader.readAsDataURL` then
`result.split(',')[1]`; an absent index is modelled as the empty string. -/
def readFileAsBase64 (file : FileData) : String :=
  ((jsSplitChar ',' file.dataUrl).drop 1).headD ""

/-- `readFileAsText` (App). -/
def readFileAsText (file : FileData) : String :=
  file.textContent

/-- `fileToPart` (App): binary MIME types become inline base64 data, anything
else becomes a delimited text block. -/
def fileToPart (file : FileData) : ContentPart :=
  let isImage := strStartsWith file.type "image/"
  let isPdf := file.type == "application/pdf"
  let isAudio := strStartsWith file.type "audio/"
  let isVideo := strStartsWith file.type "video/"
  if isImage || isPdf || isAudio || isVideo then
    ContentPart.inlineData (if file.type = "" then "application/octet-stream" else file.type)
      (readFileAsBase64 file)
  else
    ContentPart.text ("File: " ++ file.name ++ "\nContent:\n" ++ readFileAsText file ++ "\n---\n")

/-- The binary classification used by `fileToPart`, named for the theorems. -/
def isBinaryMime (t : String) : Bool :=
  strStartsWith t "image/" || t == "application/pdf" ||
  strStartsWith t "audio/" || strStartsWith t "video/"

/-! ## LLM Gateway (`geminiService.ts`) -/

def safetySettings : List (String × String) :=
  [("HARM_CATEGORY_HARASSMENT", "BLOCK_MEDIUM_AND_ABOVE"),
   ("HARM_CATEGORY_HATE_SPEECH", "BLOCK_MEDIUM_AND_ABOVE"),
   ("HARM_CATEGORY_SEXUALLY_EXPLICIT", "BLOCK_MEDIUM_AND_ABOVE"),
   ("HARM_CATEGORY_DANGEROUS_CONTENT", "BLOCK_MEDIUM_AND_ABOVE")]

inductive ToolKind where
  | urlContext
deriving DecidableEq

structure GenerateRequest where
  model : String
  parts : List ContentPart
  tools : Option (List ToolKind)
  safety : List (String × String)
deriving DecidableEq

/-- The augmented prompt of `generateContentWithContext`: the URL list is
appended exactly when `urls` is non-empty. -/
def promptWithUrls (prompt : String) (urls : List String) : String :=
  if urls.length > 0 then
    prompt ++ "\n\nRelevant URLs for context:\n" ++ jsJoin "\n" urls
  else prompt

/-- Request assembly of `generateContentWithContext`: the URL-context tool is
configured only when URLs are present, file parts are pushed before the
prompt part, and the fixed safety settings are always attached. -/
def buildGenerateRequest (prompt : String) (urls : List String) (fileParts : List ContentPart) : GenerateRequest :=
  { model := "gemini-2.5-flash"
    parts := fileParts ++ [ContentPart.text (promptWithUrls prompt urls)]
    tools := if urls.length > 0 then some [ToolKind.urlContext] else none
    safety := safetySettings }

structure UrlContextMetadataItem where
  retrievedUrl : String
  urlRetrievalStatus : String
deriving DecidableEq

structure UrlContextMetadata where
  urlMetadata : Option (List UrlContextMetadataItem)
deriving DecidableEq

structure Candidate where
  finishReason : Option String
  urlContextMetadata : Option UrlContextMetadata
deriving DecidableEq

/-- The upstream `GenerateContentResponse` as the service reads it; absent
fields are `none`. -/
structure GenerateContentResponse where
  text : Option String
  candidates : Option (List Candidate)
deriving DecidableEq

structure GeminiResponse where
  text : String
  urlContextMetadata : Option (List UrlContextMetadataItem)
deriving DecidableEq

/-- A JavaScript thrown value: an `Error` with a message, or anything else. -/
inductive ThrownValue where
  | jsError (message : String)
  | other
deriving DecidableEq

def authFailedMsg : String := "Authentication failed. Please verify your API Key."

def quotaMsg : String := "Usage limit exceeded. Please try again later."

def unavailableMsg : String :=
  "The AI service is temporarily unavailable. Please try again in a few moments."

def networkMsg : String := "Network connection failed. Please check your internet connection."

def safetyBlockedMsg : String :=
  "The content was blocked due to safety policies. Please try a different prompt."

def candidateMsg : String := "The model could not generate a valid response for this request."

def unexpectedMsg : String :=
  "An unexpected error occurred while communicating with the AI service."

/-- Shortest-match search for the first `]` on the same line, modelling the
lazy body of the regular expression used in the generic-message cleanup. -/
def findBracketClose : List Char → Option (List Char)
  | [] => none
  | c :: t =>
    if c = ']' then some t
    else if c = '\n' ∨ c = '\r' then none
    else findBracketClose t

/-- Model of `msg.replace(/\[.*?\]\s*/, '')`: remove the leftmost bracketed
segment (no line break inside) together with the whitespace run after it. -/
def removeFirstBracketed : List Char → List Char
  | [] => []
  | c :: t =>
    if c = '[' then
      match findBracketClose t with
      | some rest => rest.dropWhile isJsWhite
      | none => c :: removeFirstBracketed t
    else c :: removeFirstBracketed t

/-- Model of `.replace(/^GoogleGenAIError:\s*/, '')`. -/
def stripGoogleGenAIHeader (cs : List Char) : List Char :=
  if ("GoogleGenAIError:".data).isPrefixOf cs then
    (cs.drop ("GoogleGenAIError:".data).length).dropWhile isJsWhite
  else cs

/-- The generic fallback branch of `formatGeminiError`. -/
def cleanGenericMessage (msg : String) : String :=
  ⟨stripGoogleGenAIHeader (removeFirstBracketed msg.data)⟩

/-- `formatGeminiError` (geminiService.ts): case-insensitive keyword
classification of a thrown value into a user-facing message. -/
def formatGeminiError (error : ThrownValue) : String :=
  match error with
  | .jsError msg =>
    let lowerMsg := jsToLower msg
    if strIncludes lowerMsg "403" || strIncludes lowerMsg "api key" then
      authFailedMsg
    else if strIncludes lowerMsg "429" || strIncludes lowerMsg "quota" then
      quotaMsg
    else if strIncludes lowerMsg "503" || strIncludes lowerMsg "service unavailable" ||
        strIncludes lowerMsg "overloaded" then
      unavailableMsg
    else if strIncludes lowerMsg "network" || strIncludes lowerMsg "fetch failed" ||
        strIncludes lowerMsg "failed to fetch" then
      networkMsg
    else if strIncludes lowerMsg "safety" || strIncludes lowerMsg "blocked" then
      safetyBlockedMsg
    else if strIncludes lowerMsg "candidate" then
      candidateMsg
    else
      cleanGenericMessage msg
  | .other => unexpectedMsg

/-- The spec's view of the same mapping: a fixed ordered table of keyword
sets, each with its category message. -/
def errorKeywordTable : List (List String × String) :=
  [(["403", "api key"], authFailedMsg),
   (["429", "quota"], quotaMsg),
   (["503", "service unavailable", "overloaded"], unavailableMsg),
   (["network", "fetch failed", "failed to fetch"], networkMsg),
   (["safety", "blocked"], safetyBlockedMsg),
   (["candidate"], candidateMsg)]

/-- First-match-wins evaluation of a keyword table against the lower-cased
message (the spec's description of error normalization). -/
def classifySpec (table : List (List String × String)) (msg : String) : Option String :=
  match table with
  | [] => none
  | (kws, out) :: rest =>
    if kws.any (fun kw => strIncludes (jsToLower msg) kw) then some out
    else classifySpec rest msg

/-- `${candidate.finishReason}` string interpolation: `undefined` prints as
the literal text "undefined". -/
def finishReasonText : Option String → String
  | some r => r
  | none => "undefined"

/-- Metadata extraction of `generateContentWithContext`:
`response.candidates?.[0]?.urlContextMetadata?.urlMetadata`. -/
def extractUrlContextMetadata (response : GenerateContentResponse) : Option (List UrlContextMetadataItem) :=
  match response.candidates with
  | some (c :: _) =>
    match c.urlContextMetadata with
    | some m => m.urlMetadata
    | none => none
  | _ => none

/-- Response handling of `generateContentWithContext`: empty text with a
non-"STOP" finish reason raises an internal error which the surrounding
catch re-throws as `formatGeminiError` of it; otherwise the text and any
URL-context metadata are returned. -/
def generateResult (response : GenerateContentResponse) : Except String GeminiResponse :=
  let text := response.text.getD ""
  let failText : Option String :=
    match response.candidates with
    | some (c :: _) =>
      if text = "" ∧ c.finishReason ≠ some "STOP" then
        some ("Response stopped due to: " ++ finishReasonText c.finishReason)
      else none
    | _ => none
  match failText with
  | some m => Except.error (formatGeminiError (ThrownValue.jsError m))
  | none => Except.ok { text := text, urlContextMetadata := extractUrlContextMetadata response }

/-! ## Suggestion parsing (`fetchAndSetInitialSuggestions`, App) -/

inductive Json where
  | null
  | bool (b : Bool)
  | num (lexeme : String)
  | str (s : String)
  | arr (items : List Json)
  | obj (fields : List (String × Json))

def isJsonWs (c : Char) : Bool :=
  c = ' ' || c = '\t' || c = '\n' || c = '\r'

def isHexChar (c : Char) : Bool :=
  c.isDigit || ('a' ≤ c ∧ c ≤ 'f') || ('A' ≤ c ∧ c ≤ 'F')

def hexVal (c : Char) : Nat :=
  if '0' ≤ c ∧ c ≤ '9' then c.toNat - '0'.toNat
  else if 'a' ≤ c ∧ c ≤ 'f' then c.toNat - 'a'.toNat + 10
  else if 'A' ≤ c ∧ c ≤ 'F' then c.toNat - 'A'.toNat + 10
  else 0

/-- Parse a JSON string body (after the opening quote), handling escapes and
rejecting raw control characters, as `JSON.parse` does. -/
def parseStringBody : Nat → List Char → Option (String × List Char)
  | 0, _ => none
  | _, [] => none
  | fuel + 1, c :: t =>
    if c = '"' then some ("", t)
    else if c = '\\' then
      match t with
      | [] => none
      | e :: t2 =>
        let esc : Option (Char × List Char) :=
          if e = '"' then some ('"', t2)
          else if e = '\\' then some ('\\', t2)
          else if e = '/' then some ('/', t2)
          else if e = 'b' then some ('\x08', t2)
          else if e = 'f' then some ('\x0c', t2)
          else if e = 'n' then some ('\n', t2)
          else if e = 'r' then some ('\r', t2)
          else if e = 't' then some ('\t', t2)
          else if e = 'u' then
            match t2 with
            | a :: b :: c2 :: d :: t3 =>
              if isHexChar a && isHexChar b && isHexChar c2 && isHexChar d then
                some (Char.ofNat (hexVal a * 4096 + hexVal b * 256 + hexVal c2 * 16 + hexVal d), t3)
              else none
            | _ => none
          else none
        match esc with
        | some (ch, rest) =>
          match parseStringBody fuel rest with
          | some (s, r) => some (⟨ch :: s.data⟩, r)
          | none => none
        | none => none
    else if c.toNat < 32 then none
    else
      match parseStringBody fuel t with
      | some (s, r) => some (⟨c :: s.data⟩, r)
      | none => none

/-- Lex a JSON number (sign, integer part without leading zeros, optional
fraction and exponent); the numeric value itself is never inspected by the
program, so the lexeme is kept as a string. -/
def parseNumberLexeme (cs : List Char) : Option (String × List Char) :=
  let signAndRest : List Char × List Char :=
    match cs with
    | '-' :: t => (['-'], t)
    | _ => ([], cs)
  let sign := signAndRest.1
  let cs1 := signAndRest.2
  match cs1 with
  | [] => none
  | c :: _ =>
    if ¬ c.isDigit then none
    else
      let intPart := cs1.takeWhile Char.isDigit
      let cs2 := cs1.dropWhile Char.isDigit
      if intPart.length > 1 ∧ intPart.headD '0' = '0' then none
      else
        let fracAndRest : List Char × List Char :=
          match cs2 with
          | '.' :: t =>
            let ds := t.takeWhile Char.isDigit
            if ds.isEmpty then ([], cs2)
            else ('.' :: ds, t.dropWhile Char.isDigit)
          | _ => ([], cs2)
        let frac := fracAndRest.1
        let cs3 := fracAndRest.2
        let expAndRest : List Char × List Char :=
          match cs3 with
          | e :: t =>
            if e = 'e' ∨ e = 'E' then
              let signExp : List Char × List Char :=
                match t with
                | '+' :: r => (['+'], r)
                | '-' :: r => (['-'], r)
                | _ => ([], t)
              let ds := signExp.2.takeWhile Char.isDigit
              if ds.isEmpty then ([], cs3)
              else (e :: (signExp.1 ++ ds), signExp.2.dropWhile Char.isDigit)
            else ([], cs3)
          | _ => ([], cs3)
        some (⟨sign ++ intPart ++ frac ++ expAndRest.1⟩, expAndRest.2)

mutual

/-- Fuel-indexed recursive-descent model of `JSON.parse` (value level). -/
def parseJsonValue : Nat → List Char → Option (Json × List Char)
  | 0, _ => none
  | fuel + 1, cs =>
    let cs1 := cs.dropWhile isJsonWs
    match cs1 with
    | [] => none
    | c :: t =>
      if c = '"' then
        match parseStringBody (t.length + 1) t with
        | some (s, rest) => some (Json.str s, rest)
        | none => none
      else if c = '[' then
        let t1 := t.dropWhile isJsonWs
        match t1 with
        | ']' :: r => some (Json.arr [], r)
        | _ => parseJsonArrayItems fuel t1 []
      else if c = '\x7b' then
        let t1 := t.dropWhile isJsonWs
        match t1 with
        | '\x7d' :: r => some (Json.obj [], r)
        | _ => parseJsonObjectItems fuel t1 []
      else if c = 't' then
        if ['t','r','u','e'].isPrefixOf cs1 then some (Json.bool true, cs1.drop 4) else none
      else if c = 'f' then
        if ['f','a','l','s','e'].isPrefixOf cs1 then some (Json.bool false, cs1.drop 5) else none
      else if c = 'n' then
        if ['n','u','l','l'].isPrefixOf cs1 then some (Json.null, cs1.drop 4) else none
      else
        match parseNumberLexeme cs1 with
        | some (s, r) => some (Json.num s, r)
        | none => none

def parseJsonArrayItems : Nat → List Char → List Json → Option (Json × List Char)
  | 0, _, _ => none
  | fuel + 1, cs, acc =>
    match parseJsonValue fuel cs with
    | none => none
    | some (v, rest) =>
      let rest1 := rest.dropWhile isJsonWs
      match rest1 with
      | ']' :: r => some (Json.arr (acc ++ [v]), r)
      | ',' :: r => parseJsonArrayItems fuel r (acc ++ [v])
      | _ => none

def parseJsonObjectItems : Nat → List Char → List (String × Json) → Option (Json × List Char)
  | 0, _, _ => none
  | fuel + 1, cs, acc =>
    let cs1 := cs.dropWhile isJsonWs
    match cs1 with
    | '"' :: t =>
      match parseStringBody (t.length + 1) t with
      | none => none
      | some (k, rest) =>
        let rest1 := rest.dropWhile isJsonWs
        match rest1 with
        | ':' :: r =>
          match parseJsonValue fuel r with
          | none => none
          | some (v, rest2) =>
            let rest3 := rest2.dropWhile isJsonWs
            match rest3 with
            | '\x7d' :: r2 => some (Json.obj (acc ++ [(k, v)]), r2)
            | ',' :: r2 => parseJsonObjectItems fuel r2 (acc ++ [(k, v)])
            | _ => none
        | _ => none
    | _ => none

end

/-- Model of `JSON.parse`: `none` is a thrown `SyntaxError`. -/
def jsonParse (s : String) : Option Json :=
  match parseJsonValue (2 * s.data.length + 2) s.data with
  | some (v, rest) => if rest.dropWhile isJsonWs = [] then some v else none
  | none => none

/-- JavaScript property lookup on a parsed object (last duplicate key wins,
as in `JSON.parse`). -/
def jsLookup (fields : List (String × Json)) (key : String) : Option Json :=
  (fields.reverse.find? (fun p => p.1 == key)).map (fun p => p.2)

def isWordChar (c : Char) : Bool :=
  c.isAlphanum || c = '_'

/-- Model of the code-fence regular expression
`^`​``(\w*)?\s*\n?(.*?)\n?\s*`​``$` with dotall, returning capture group 2.
The greedy head consumes the fence word and all following whitespace (so the
optional newline matches empty), the anchored tail forces the closing fence
to be the final three backticks, and the lazy body leaves the maximal
whitespace run before the closing fence to the tail. -/
def fenceMatch (s : String) : Option String :=
  let cs := s.data
  if cs.take 3 = ['`', '`', '`'] then
    let afterHead := ((cs.drop 3).dropWhile isWordChar).dropWhile isJsWhite
    if afterHead.length ≥ 3 ∧ afterHead.drop (afterHead.length - 3) = ['`', '`', '`'] then
      some ⟨dropTrailingJsWhite (afterHead.take (afterHead.length - 3))⟩
    else none
  else none

/-- The string actually handed to `JSON.parse` by
`fetchAndSetInitialSuggestions`: trim, then strip a surrounding code fence
when the fence match produced a non-empty body. -/
def effectiveSuggestionJson (s : String) : String :=
  let jsonStr0 := jsTrim s
  match fenceMatch jsonStr0 with
  | some m => if m ≠ "" then jsTrim m else jsonStr0
  | none => jsonStr0

def jsonAsString : Json → Option String
  | .str s => some s
  | _ => none

/-- The suggestion array computed by `fetchAndSetInitialSuggestions` before
the final `slice(0, 4)`: empty on falsy text, parse failure, or any parsed
value without a `suggestions` array; otherwise the string entries of that
array. -/
def suggestionsFromText (text : Option String) : List String :=
  match text with
  | none => []
  | some s =>
    if s = "" then []
    else
      match jsonParse (effectiveSuggestionJson s) with
      | some (Json.obj fields) =>
        match jsLookup fields "suggestions" with
        | some (Json.arr items) => items.filterMap jsonAsString
        | _ => []
      | _ => []

/-- The suggestion list finally stored: `suggestionsArray.slice(0, 4)`. -/
def fetchSuggestionsResult (text : Option String) : List String :=
  (suggestionsFromText text).take 4

/-! ## Conversation Controller: submit guard and welcome effect (App) -/

def offlineNoticeText : String :=
  "Error: You appear to be offline. Please check your internet connection."

def apiKeyNoticeText : String := "Error: API Key is not configured."

def offlineNoticeMessage (now : Nat) : ChatMessage :=
  { id := "sys-offline-" ++ Nat.repr now
    text := offlineNoticeText
    sender := .system
    timestamp := now }

def apiKeyNoticeMessage (now : Nat) : ChatMessage :=
  { id := "error-apikey-" ++ Nat.repr now
    text := apiKeyNoticeText
    sender := .system
    timestamp := now }

def userMessage (query : String) (now : Nat) : ChatMessage :=
  { id := "user-" ++ Nat.repr now
    text := query
    sender := .user
    timestamp := now }

def modelPlaceholderMessage (now : Nat) : ChatMessage :=
  { id := "model-response-" ++ Nat.repr now
    text := "Thinking..."
    sender := .model
    timestamp := now
    isLoading := true }

structure SendStepResult where
  chatMessages : List ChatMessage
  gatewayCalled : Bool
deriving DecidableEq

/-- The synchronous prefix of `handleSendMessage` (App): the re-entrancy and
blank guard, the offline check, the credential check, and the appending of
the USER message and MODEL placeholder before the gateway call.
`gatewayCalled` records whether control reaches `generateContentWithContext`. -/
def handleSendMessageStart (query : String)
    (isLoading isFetchingSuggestions online hasApiKey : Bool)
    (now : Nat) (chatMessages : List ChatMessage) : SendStepResult :=
  if jsTrim query = "" || isLoading || isFetchingSuggestions then
    { chatMessages := chatMessages, gatewayCalled := false }
  else if !online then
    { chatMessages := chatMessages ++ [offlineNoticeMessage now], gatewayCalled := false }
  else if !hasApiKey then
    { chatMessages := chatMessages ++ [apiKeyNoticeMessage now], gatewayCalled := false }
  else
    { chatMessages := chatMessages ++ [userMessage query now, modelPlaceholderMessage now]
      gatewayCalled := true }

/-- `currentActiveGroup?.name || 'Unknown'` in the welcome effect. -/
def activeGroupNameOrUnknown (groups : List URLGroup) (activeUrlGroupId : String) : String :=
  match groups.find? (fun g => g.id == activeUrlGroupId) with
  | some g => if g.name = "" then "Unknown" else g.name
  | none => "Unknown"

def welcomeMessageText (hasApiKey : Bool) (groups : List URLGroup) (activeUrlGroupId : String) : String :=
  if !hasApiKey then
    "Error: Gemini API Key (process.env.API_KEY) is not configured. Please set this environment variable to use the application."
  else
    "Welcome! You're currently browsing \"" ++ activeGroupNameOrUnknown groups activeUrlGroupId ++
    "\". Add URLs or upload files/folders to ask questions about them."

def welcomeMessage (hasApiKey : Bool) (groups : List URLGroup) (activeUrlGroupId : String) (now : Nat) : ChatMessage :=
  { id := "system-welcome-" ++ activeUrlGroupId ++ "-" ++ Nat.repr now
    text := welcomeMessageText hasApiKey groups activeUrlGroupId
    sender := .system
    timestamp := now }

/-- The App state the welcome effect observes.  `groupsVersion` models the
reference identity of the `urlGroups` array: every store mutation calls
`setUrlGroups(prev => prev.map(...))`, and `Array.prototype.map` always
allocates a fresh array, so the dependency `[activeUrlGroupId, urlGroups]`
of the welcome `useEffect` changes on every mutation even when the contents
are unchanged. -/
structure AppState where
  urlGroups : List URLGroup
  groupsVersion : Nat
  activeUrlGroupId : String
  chatMessages : List ChatMessage
deriving DecidableEq

inductive StoreOp where
  | addUrl (url : String)
  | removeUrl (url : String)
  | addFiles (files : List FileData)
  | removeFile (name : String)
  | setActiveGroup (id : String)

def StoreOp.isMutation : StoreOp → Bool
  | .setActiveGroup _ => false
  | _ => true

/-- One store operation followed by the welcome `useEffect`: the effect
re-runs exactly when its dependencies `[activeUrlGroupId, urlGroups]`
changed (React compares by reference; a `setActiveUrlGroupId` to the same
id is a bail-out and re-renders nothing), and when it runs it replaces the
transcript with a single SYSTEM welcome message. -/
def applyStoreOp (hasApiKey : Bool) (now : Nat) (op : StoreOp) (st : AppState) : AppState :=
  let st' : AppState :=
    match op with
    | .addUrl url =>
      { st with urlGroups := handleAddUrl st.activeUrlGroupId url st.urlGroups
                groupsVersion := st.groupsVersion + 1 }
    | .removeUrl url =>
      { st with urlGroups := handleRemoveUrl st.activeUrlGroupId url st.urlGroups
                groupsVersion := st.groupsVersion + 1 }
    | .addFiles fs =>
      { st with urlGroups := handleAddFiles st.activeUrlGroupId fs st.urlGroups
                groupsVersion := st.groupsVersion + 1 }
    | .removeFile n =>
      { st with urlGroups := handleRemoveFile st.activeUrlGroupId n st.urlGroups
                groupsVersion := st.groupsVersion + 1 }
    | .setActiveGroup id =>
      if id = st.activeUrlGroupId then st else { st with activeUrlGroupId := id }
  if st'.activeUrlGroupId ≠ st.activeUrlGroupId ∨ st'.groupsVersion ≠ st.groupsVersion then
    { st' with chatMessages := [welcomeMessage hasApiKey st'.urlGroups st'.activeUrlGroupId now] }
  else st'

/-! ## Witness fixtures (concrete inputs used by the witness theorems) -/

def fileA : FileData := ⟨"a.txt", 1, "text/plain", "", "alpha"⟩

def fileA2 : FileData := ⟨"a.txt", 2, "text/plain", "", "alpha-two"⟩

def fileB : FileData := ⟨"b.txt", 1, "text/plain", "", "beta"⟩

def witnessGroup : URLGroup := ⟨"g1", "Group One", [], [fileA]⟩

def pngFile : FileData := ⟨"p.png", 5, "image/png", "data:image/png;base64,AAAA", ""⟩

/-- A model reply wrapping the suggestions JSON in a Markdown code fence. -/
def fencedSuggestionText : String := "```json\n\x7b\"suggestions\":[\"a\",\"b\"]\x7d\n```"

/-- An upstream response with empty text whose finish reason trips the
"safety" keyword of the error normalization. -/
def imageSafetyResponse : GenerateContentResponse :=
  { text := some ""
    candidates := some [{ finishReason := some "IMAGE_SAFETY", urlContextMetadata := none }] }

/-- An upstream response with empty text whose finish reason trips no
keyword of the error normalization. -/
def maxTokensResponse : GenerateContentResponse :=
  { text := some ""
    candidates := some [{ finishReason := some "MAX_TOKENS", urlContextMetadata := none }] }

instance (g : URLGroup) : Decidable (groupBounded g) := by
  unfold groupBounded; infer_instance

instance (groups : List URLGroup) : Decidable (storeBounded groups) := by
  unfold storeBounded; infer_instance

/-! ## Helper lemmas -/

theorem map_eq_self_of_mem {α : Type} (f : α → α) :
    ∀ l : List α, (∀ x ∈ l, f x = x) → l.map f = l := by
  intro l
  induction l with
  | nil => intro _; rfl
  | cons x xs ih =>
    intro h
    simp [h x (by simp), ih (fun y hy => h y (by simp [hy]))]

theorem map_fixpoint {α : Type} (f : α → α) (h : ∀ x, f (f x) = f x) (l : List α) :
    (l.map f).map f = l.map f := by
  induction l with
  | nil => rfl
  | cons x xs ih => simp [h x, ih]

theorem take_of_le {α : Type} : ∀ (l : List α) (n : Nat), l.length ≤ n → l.take n = l := by
  intro l
  induction l with
  | nil => intro n _; simp
  | cons x xs ih =>
    intro n h
    cases n with
    | zero => simp at h
    | succ m => simp [ih m (by simpa using h)]

theorem take_append_of_le {α : Type} :
    ∀ (a b : List α) (n : Nat), a.length ≤ n → (a ++ b).take n = a ++ b.take (n - a.length) := by
  intro a
  induction a with
  | nil => intro b n _; simp
  | cons x xs ih =>
    intro b n h
    cases n with
    | zero => simp at h
    | succ m =>
      show (x :: (xs ++ b)).take (m + 1) = x :: xs ++ b.take (m + 1 - (x :: xs).length)
      simp only [List.take_succ_cons, List.length_cons, Nat.succ_sub_succ, List.cons_append]
      rw [ih b m (by simpa using h)]

theorem addUrlToGroup_bounded (aid url : String) (g : URLGroup) (h : groupBounded g) :
    groupBounded (addUrlToGroup aid url g) := by
  unfold addUrlToGroup
  split_ifs with h1 h2
  · exact ⟨by simpa [List.length_append] using h2.1, h.2⟩
  · exact h
  · exact h

theorem addFilesToGroup_bounded (aid : String) (fs : List FileData) (g : URLGroup)
    (h : groupBounded g) : groupBounded (addFilesToGroup aid fs g) := by
  unfold addFilesToGroup groupBounded
  split_ifs with h1 h2
  · exact ⟨h.1, List.length_take_le MAX_FILES (g.files ++ fs)⟩
  · exact ⟨h.1, Nat.le_of_not_lt h2⟩
  · exact h

theorem storeBounded_map (groups : List URLGroup) (f : URLGroup → URLGroup)
    (hf : ∀ g, groupBounded g → groupBounded (f g)) (h : storeBounded groups) :
    storeBounded (groups.map f) := by
  intro g hg
  rcases List.mem_map.mp hg with ⟨g0, hg0, rfl⟩
  exact hf g0 (h g0 hg0)

theorem applyAddOp_bounded (aid : String) (op : AddOp) (groups : List URLGroup)
    (h : storeBounded groups) : storeBounded (applyAddOp aid op groups) := by
  cases op with
  | addUrl url => exact storeBounded_map groups _ (addUrlToGroup_bounded aid url) h
  | addFiles fs => exact storeBounded_map groups _ (addFilesToGroup_bounded aid fs) h

theorem applyAddOps_bounded (aid : String) (ops : List AddOp) :
    ∀ groups : List URLGroup, storeBounded groups → storeBounded (applyAddOps aid ops groups) := by
  induction ops with
  | nil => intro groups h; simpa [applyAddOps] using h
  | cons op rest ih =>
    intro groups h
    have h1 := applyAddOp_bounded aid op groups h
    simpa [applyAddOps, List.foldl_cons] using ih _ h1

theorem addFilesToGroup_id (aid : String) (fs : List FileData) (g : URLGroup) :
    (addFilesToGroup aid fs g).id = g.id := by
  unfold addFilesToGroup
  split_ifs <;> rfl

theorem find?_map_id_preserving (f : URLGroup → URLGroup) (hf : ∀ g, (f g).id = g.id)
    (aid : String) :
    ∀ groups : List URLGroup,
      (groups.map f).find? (fun g => g.id == aid) = (groups.find? (fun g => g.id == aid)).map f := by
  intro groups
  induction groups with
  | nil => rfl
  | cons g gs ih =>
    simp only [List.map_cons, List.find?_cons]
    rw [hf g]
    cases hb : (g.id == aid) with
    | true => simp
    | false => simpa using ih

theorem addUrlToGroup_idem (aid url : String) (g : URLGroup) :
    addUrlToGroup aid url (addUrlToGroup aid url g) = addUrlToGroup aid url g := by
  by_cases h1 : g.id = aid
  · by_cases h2 : g.urls.length < MAX_URLS ∧ url ∉ g.urls
    · have e1 : addUrlToGroup aid url g = { g with urls := g.urls ++ [url] } := by
        simp [addUrlToGroup, h1, h2]
      rw [e1]
      have hmem : url ∈ g.urls ++ [url] := by simp
      simp [addUrlToGroup, h1, hmem]
    · have e1 : addUrlToGroup aid url g = g := by simp [addUrlToGroup, h1, h2]
      rw [e1]
      exact e1
  · have e1 : addUrlToGroup aid url g = g := by simp [addUrlToGroup, h1]
    rw [e1]
    exact e1

/-! ## Claim theorems -/

/-- C1: for every group and every sequence of add operations (addUrl,
addFiles), the URL list stays within 20 and the file list within 50; an
addUrl at capacity is a no-op and an overflowing addFiles batch is truncated
to the cap. -/
theorem c1_store_capacity_bounds (activeId : String) (ops : List AddOp)
    (groups : List URLGroup) (hinv : storeBounded groups) :
    storeBounded (applyAddOps activeId ops groups)
    ∧ (∀ url, (∀ g ∈ groups, g.id = activeId → MAX_URLS ≤ g.urls.length) →
        handleAddUrl activeId url groups = groups)
    ∧ (∀ newFiles (g : URLGroup), g.id = activeId →
        MAX_FILES < g.files.length + newFiles.length →
        (addFilesToGroup activeId newFiles g).files = (g.files ++ newFiles).take MAX_FILES) := by
  refine ⟨applyAddOps_bounded activeId ops groups hinv, ?_, ?_⟩
  · intro url hcap
    unfold handleAddUrl
    apply map_eq_self_of_mem
    intro g hg
    unfold addUrlToGroup
    split_ifs with h1 h2
    · exact absurd h2.1 (Nat.not_lt.mpr (hcap g hg h1))
    · rfl
    · rfl
  · intro newFiles g hid hover
    have hgt : (g.files ++ newFiles).length > MAX_FILES := by
      simpa [List.length_append] using hover
    unfold addFilesToGroup
    rw [if_pos hid, if_pos hgt]

theorem c1_store_capacity_bounds_witness :
    storeBounded [⟨"g1", "Group One", [], []⟩]
    ∧ storeBounded (applyAddOps "g1" [AddOp.addUrl "https://a.example"]
        [⟨"g1", "Group One", [], []⟩]) :=
  ⟨by decide,
   (c1_store_capacity_bounds "g1" [AddOp.addUrl "https://a.example"]
      [⟨"g1", "Group One", [], []⟩] (by decide)).1⟩

/-- C2: the add-files path appends only files whose names are not already in
the active group, and truncates the combined list to the 50-file cap keeping
all existing entries and dropping the newest overflow. -/
theorem c2_addFiles_dedup_truncate (groups : List URLGroup) (activeId : String)
    (selected : List FileData) (g : URLGroup)
    (hfind : groups.find? (fun g => g.id == activeId) = some g)
    (hlen : g.files.length ≤ MAX_FILES) :
    currentFilesForChat (handleFileChange activeId selected groups) activeId
      = g.files ++ (selected.filter
          (fun f => !((g.files.map FileData.name).contains f.name))).take
            (MAX_FILES - g.files.length) := by
  have hid : g.id = activeId := by
    have := List.find?_some hfind
    simpa [beq_iff_eq] using this
  have hcur : currentFilesForChat groups activeId = g.files := by
    unfold currentFilesForChat
    rw [hfind]
  unfold handleFileChange
  rw [hcur]
  by_cases hsel : selected.length > 0
  · rw [if_pos hsel]
    by_cases huniq :
        (selected.filter (fun f => !((g.files.map FileData.name).contains f.name))).length > 0
    · rw [if_pos huniq]
      unfold currentFilesForChat handleAddFiles
      rw [find?_map_id_preserving _ (addFilesToGroup_id activeId _) activeId, hfind,
        Option.map_some']
      show (addFilesToGroup activeId _ g).files = _
      unfold addFilesToGroup
      rw [if_pos hid]
      by_cases hbig :
          (g.files ++ selected.filter (fun f => !((g.files.map FileData.name).contains f.name))).length > MAX_FILES
      · rw [if_pos hbig]
        show (g.files ++ _).take MAX_FILES = _
        rw [take_append_of_le _ _ _ hlen]
      · rw [if_neg hbig]
        show g.files ++ _ = g.files ++ _
        rw [take_of_le]
        simp only [List.length_append, Nat.not_lt] at hbig
        omega
    · rw [if_neg huniq]
      rw [hcur]
      have hnil :
          selected.filter (fun f => !((g.files.map FileData.name).contains f.name)) = [] := by
        simpa using Nat.le_zero.mp (Nat.not_lt.mp huniq)
      rw [hnil]
      simp
  · rw [if_neg hsel]
    rw [hcur]
    have hnil : selected = [] := by
      simpa using Nat.le_zero.mp (Nat.not_lt.mp hsel)
    subst hnil
    simp

theorem c2_addFiles_dedup_truncate_witness :
    [witnessGroup].find? (fun g => g.id == "g1") = some witnessGroup
    ∧ currentFilesForChat (handleFileChange "g1" [fileA2, fileB] [witnessGroup]) "g1"
        = [fileA, fileB] :=
  ⟨by rfl,
   (c2_addFiles_dedup_truncate [witnessGroup] "g1" [fileA2, fileB] witnessGroup
      (by rfl) (by decide)).trans (by rfl)⟩

/-- C3: adding a URL already present in the active group leaves all group
contents unchanged, and addUrl is idempotent on the group state. -/
theorem c3_addUrl_duplicate_noop (activeId url : String) (groups : List URLGroup) :
    ((∀ g ∈ groups, g.id = activeId → url ∈ g.urls) →
        handleAddUrl activeId url groups = groups)
    ∧ handleAddUrl activeId url (handleAddUrl activeId url groups)
        = handleAddUrl activeId url groups := by
  constructor
  · intro hmem
    unfold handleAddUrl
    apply map_eq_self_of_mem
    intro g hg
    unfold addUrlToGroup
    split_ifs with h1 h2
    · exact absurd (hmem g hg h1) h2.2
    · rfl
    · rfl
  · unfold handleAddUrl
    exact map_fixpoint _ (addUrlToGroup_idem activeId url) groups

theorem c3_addUrl_duplicate_noop_witness :
    (∀ g ∈ [(⟨"g1", "Group One", ["https://a.example"], []⟩ : URLGroup)],
        g.id = "g1" → "https://a.example" ∈ g.urls)
    ∧ handleAddUrl "g1" "https://a.example"
        [(⟨"g1", "Group One", ["https://a.example"], []⟩ : URLGroup)]
        = [(⟨"g1", "Group One", ["https://a.example"], []⟩ : URLGroup)] :=
  ⟨by decide,
   (c3_addUrl_duplicate_noop "g1" "https://a.example"
      [(⟨"g1", "Group One", ["https://a.example"], []⟩ : URLGroup)]).1 (by decide)⟩

/-! ## String containment and error-normalization helpers -/

theorem isPrefixOf_self_chars : ∀ l : List Char, l.isPrefixOf l = true := by
  intro l
  induction l with
  | nil => rfl
  | cons c t ih => simp [List.isPrefixOf, ih]

theorem charsContain_append_self (pre suf : List Char) :
    charsContain suf (pre ++ suf) = true := by
  induction pre with
  | nil =>
    cases suf with
    | nil => rfl
    | cons c t => simp [charsContain, isPrefixOf_self_chars]
  | cons x xs ih => simp [charsContain, ih]

/-- `formatGeminiError` on an `Error` value is exactly the first-match-wins
evaluation of the fixed keyword table, with the generic cleanup as fallback. -/
theorem formatGeminiError_table (msg : String) :
    formatGeminiError (ThrownValue.jsError msg)
      = (classifySpec errorKeywordTable msg).getD (cleanGenericMessage msg) := by
  simp only [formatGeminiError, classifySpec, errorKeywordTable, List.any_cons, List.any_nil,
    Bool.or_false, Bool.or_assoc]
  split_ifs <;> rfl

theorem removeFirstBracketed_noop :
    ∀ cs : List Char, (∀ c ∈ cs, c ≠ '[') → removeFirstBracketed cs = cs := by
  intro cs
  induction cs with
  | nil => intro _; rfl
  | cons c t ih =>
    intro h
    unfold removeFirstBracketed
    rw [if_neg (h c (by simp))]
    rw [ih (fun x hx => h x (by simp [hx]))]

theorem stripHeader_stopped (t : List Char) :
    stripGoogleGenAIHeader ("Response stopped due to: ".data ++ t)
      = "Response stopped due to: ".data ++ t := rfl

/-- C4 counterexample: at an upstream response with empty text and finish
reason "IMAGE_SAFETY", `generate` throws the fixed safety-block message, and
that message does not contain the termination reason. -/
theorem c4_reason_not_embedded_counterexample :
    generateResult imageSafetyResponse = Except.error safetyBlockedMsg
    ∧ strIncludes safetyBlockedMsg "IMAGE_SAFETY" = false := by
  exact ⟨rfl, rfl⟩

/-- C4 (amended): on empty output text with a candidate whose finish reason
is not "STOP", `generate` fails with the error-normalized form of a message
embedding the finish reason; the reason itself survives into the surfaced
message whenever the composed message matches no normalization keyword set
(and the reason contains no bracketed segment for the generic cleanup to
remove). -/
theorem c4_empty_nonstop_failure (response : GenerateContentResponse) (c : Candidate)
    (rest : List Candidate) (r : String)
    (htext : response.text.getD "" = "")
    (hcand : response.candidates = some (c :: rest))
    (hfr : c.finishReason = some r) (hne : r ≠ "STOP") :
    generateResult response
      = Except.error (formatGeminiError (ThrownValue.jsError ("Response stopped due to: " ++ r)))
    ∧ (classifySpec errorKeywordTable ("Response stopped due to: " ++ r) = none →
        ('[' ∈ r.data → False) →
        strIncludes (formatGeminiError (ThrownValue.jsError ("Response stopped due to: " ++ r))) r
          = true) := by
  constructor
  · simp [generateResult, hcand, htext, hfr, hne, finishReasonText]
  · intro hclass hbr
    rw [formatGeminiError_table, hclass]
    show strIncludes (cleanGenericMessage ("Response stopped due to: " ++ r)) r = true
    unfold cleanGenericMessage strIncludes
    have hmsg : ("Response stopped due to: " ++ r).data
        = "Response stopped due to: ".data ++ r.data := rfl
    rw [hmsg]
    have hpre : ∀ c ∈ "Response stopped due to: ".data, c ≠ '[' := by decide
    rw [removeFirstBracketed_noop _ ?hnb, stripHeader_stopped]
    case hnb =>
      intro ch hch
      rcases List.mem_append.mp hch with hin | hin
      · exact hpre ch hin
      · intro he
        exact hbr (he ▸ hin)
    exact charsContain_append_self _ _

theorem c4_empty_nonstop_failure_witness :
    generateResult maxTokensResponse
      = Except.error
          (formatGeminiError (ThrownValue.jsError ("Response stopped due to: " ++ "MAX_TOKENS")))
    ∧ strIncludes
        (formatGeminiError (ThrownValue.jsError ("Response stopped due to: " ++ "MAX_TOKENS")))
        "MAX_TOKENS" = true :=
  have h := c4_empty_nonstop_failure maxTokensResponse
    ⟨some "MAX_TOKENS", none⟩ [] "MAX_TOKENS" rfl rfl rfl (by decide)
  ⟨h.1, h.2 (by rfl) (by decide)⟩

/-- C5: error normalization maps every thrown value to one of the fixed
category messages or the generic fallback, selected by case-insensitive
substring match against the fixed ordered keyword table, first match wins;
non-`Error` values get the generic unexpected-error fallback. -/
theorem c5_error_normalization (msg : String) :
    formatGeminiError (ThrownValue.jsError msg)
      = (classifySpec errorKeywordTable msg).getD (cleanGenericMessage msg)
    ∧ formatGeminiError ThrownValue.other = unexpectedMsg :=
  ⟨formatGeminiError_table msg, rfl⟩

/-- C6: the URL-context tool is attached iff `urls` is non-empty; the prompt
is augmented with the URL list exactly when `urls` is non-empty; and all
file fragments precede the prompt text part. -/
theorem c6_request_shape (prompt : String) (urls : List String) (fileParts : List ContentPart) :
    ((buildGenerateRequest prompt urls fileParts).tools ≠ none ↔ urls ≠ [])
    ∧ (buildGenerateRequest prompt urls fileParts).parts
        = fileParts ++ [ContentPart.text (promptWithUrls prompt urls)]
    ∧ (urls = [] → promptWithUrls prompt urls = prompt)
    ∧ (urls ≠ [] →
        promptWithUrls prompt urls
            = prompt ++ "\n\nRelevant URLs for context:\n" ++ jsJoin "\n" urls
          ∧ promptWithUrls prompt urls ≠ prompt) := by
  refine ⟨?_, rfl, ?_, ?_⟩
  · cases urls with
    | nil => simp [buildGenerateRequest]
    | cons u us => simp [buildGenerateRequest]
  · intro h
    subst h
    rfl
  · intro h
    cases urls with
    | nil => exact absurd rfl h
    | cons u us =>
      have he : promptWithUrls prompt (u :: us)
          = prompt ++ "\n\nRelevant URLs for context:\n" ++ jsJoin "\n" (u :: us) := by
        simp [promptWithUrls]
      refine ⟨he, ?_⟩
      intro heq
      rw [he] at heq
      have hl := congrArg String.length heq
      simp only [String.length_append] at hl
      have hpos : 0 < ("\n\nRelevant URLs for context:\n").length := by decide
      omega

theorem c6_request_shape_witness :
    (buildGenerateRequest "p" ["https://u"] [ContentPart.text "filepart"]).tools ≠ none
    ∧ (buildGenerateRequest "p" ["https://u"] [ContentPart.text "filepart"]).parts
        = [ContentPart.text "filepart",
           ContentPart.text "p\n\nRelevant URLs for context:\nhttps://u"] :=
  have h := c6_request_shape "p" ["https://u"] [ContentPart.text "filepart"]
  ⟨h.1.mpr (by decide), h.2.1.trans (by rfl)⟩

/-- C7: the file encoder produces an inline-binary fragment (base64 data and
the MIME type, octet-stream fallback when empty) exactly when the MIME type
starts with image/, audio/ or video/ or equals application/pdf; every other
file becomes a text fragment with a header naming the file, the literal
content and a trailing delimiter line. -/
theorem c7_file_encoder (file : FileData) :
    (isBinaryMime file.type = true →
        fileToPart file = ContentPart.inlineData
          (if file.type = "" then "application/octet-stream" else file.type)
          (readFileAsBase64 file))
    ∧ (isBinaryMime file.type = false →
        fileToPart file = ContentPart.text
          ("File: " ++ file.name ++ "\nContent:\n" ++ readFileAsText file ++ "\n---\n"))
    ∧ ((∃ m d, fileToPart file = ContentPart.inlineData m d) ↔ isBinaryMime file.type = true) := by
  have hcond : fileToPart file
      = if isBinaryMime file.type then
          ContentPart.inlineData
            (if file.type = "" then "application/octet-stream" else file.type)
            (readFileAsBase64 file)
        else
          ContentPart.text
            ("File: " ++ file.name ++ "\nContent:\n" ++ readFileAsText file ++ "\n---\n") := by
    unfold fileToPart isBinaryMime
    rfl
  refine ⟨?_, ?_, ?_, ?_⟩
  · intro h
    rw [hcond, if_pos h]
  · intro h
    rw [hcond, if_neg (by simp [h])]
  · rintro ⟨m, d, hmd⟩
    by_cases hb : isBinaryMime file.type = true
    · exact hb
    · rw [hcond, if_neg hb] at hmd
      simp at hmd
  · intro hb
    exact ⟨_, _, by rw [hcond, if_pos hb]⟩

theorem c7_file_encoder_witness :
    isBinaryMime "image/png" = true
    ∧ fileToPart pngFile = ContentPart.inlineData "image/png" "AAAA" :=
  ⟨by decide, ((c7_file_encoder pngFile).1 (by decide)).trans (by rfl)⟩

/-- C8: the suggestion parser strips a surrounding code fence before
JSON-parsing, accepts the parsed value only if it is an object with a
`suggestions` array — a parsed non-object value, or an object whose
`suggestions` key is absent or not an array, yields the empty list — and
when accepted, filters that array to string entries and caps the result at
4; any unparseable text yields an empty suggestion list (the parse failure
is swallowed, never thrown). -/
theorem c8_suggestion_parsing (text : Option String) :
    (fetchSuggestionsResult text).length ≤ 4
    ∧ (∀ s, text = some s → jsonParse (effectiveSuggestionJson s) = none →
        fetchSuggestionsResult text = [])
    ∧ (∀ s fields items, text = some s → s ≠ "" →
        jsonParse (effectiveSuggestionJson s) = some (Json.obj fields) →
        jsLookup fields "suggestions" = some (Json.arr items) →
        fetchSuggestionsResult text = (items.filterMap jsonAsString).take 4)
    ∧ (∀ s v, text = some s → jsonParse (effectiveSuggestionJson s) = some v →
        (∀ fields, v ≠ Json.obj fields) →
        fetchSuggestionsResult text = [])
    ∧ (∀ s fields, text = some s →
        jsonParse (effectiveSuggestionJson s) = some (Json.obj fields) →
        (∀ items, jsLookup fields "suggestions" ≠ some (Json.arr items)) →
        fetchSuggestionsResult text = []) := by
  refine ⟨?_, ?_, ?_, ?_, ?_⟩
  · exact List.length_take_le 4 _
  · intro s hs hparse
    subst hs
    unfold fetchSuggestionsResult suggestionsFromText
    by_cases hse : s = ""
    · simp [hse]
    · simp [hse, hparse]
  · intro s fields items hs hse hparse hlook
    subst hs
    unfold fetchSuggestionsResult suggestionsFromText
    simp [hse, hparse, hlook]
  · intro s v hs hparse hnotobj
    subst hs
    unfold fetchSuggestionsResult suggestionsFromText
    by_cases hse : s = ""
    · simp [hse]
    · cases v with
      | obj fields => exact absurd rfl (hnotobj fields)
      | null => simp [hse, hparse]
      | bool b => simp [hse, hparse]
      | num lexeme => simp [hse, hparse]
      | str sv => simp [hse, hparse]
      | arr items => simp [hse, hparse]
  · intro s fields hs hparse hnoarr
    subst hs
    unfold fetchSuggestionsResult suggestionsFromText
    by_cases hse : s = ""
    · simp [hse]
    · cases hl : jsLookup fields "suggestions" with
      | none => simp [hse, hparse, hl]
      | some j =>
        cases j with
        | arr items => exact absurd hl (hnoarr items)
        | null => simp [hse, hparse, hl]
        | bool b => simp [hse, hparse, hl]
        | num lexeme => simp [hse, hparse, hl]
        | str sv => simp [hse, hparse, hl]
        | obj fs => simp [hse, hparse, hl]

theorem c8_suggestion_parsing_witness :
    jsonParse (effectiveSuggestionJson fencedSuggestionText)
        = some (Json.obj [("suggestions", Json.arr [Json.str "a", Json.str "b"])])
    ∧ fetchSuggestionsResult (some fencedSuggestionText) = ["a", "b"] :=
  have h := (c8_suggestion_parsing (some fencedSuggestionText)).2.2.1 fencedSuggestionText
    [("suggestions", Json.arr [Json.str "a", Json.str "b"])] [Json.str "a", Json.str "b"]
    rfl (by decide) (by rfl) (by rfl)
  ⟨by rfl, h.trans (by rfl)⟩

/-- C9: a non-blank query submitted while offline (no submission or
suggestion fetch in flight) appends exactly one SYSTEM message carrying the
offline notice and makes no gateway call; no USER message and no placeholder
are appended. -/
theorem c9_offline_submit (query : String) (hasApiKey : Bool) (now : Nat)
    (msgs : List ChatMessage) (hq : jsTrim query ≠ "") :
    (handleSendMessageStart query false false false hasApiKey now msgs).chatMessages
        = msgs ++ [offlineNoticeMessage now]
    ∧ (handleSendMessageStart query false false false hasApiKey now msgs).gatewayCalled = false
    ∧ (offlineNoticeMessage now).sender = MessageSender.system
    ∧ strIncludes (offlineNoticeMessage now).text "offline" = true := by
  refine ⟨?_, ?_, rfl, ?_⟩
  · simp [handleSendMessageStart, hq]
  · simp [handleSendMessageStart, hq]
  · exact (by decide : strIncludes offlineNoticeText "offline" = true)

theorem c9_offline_submit_witness :
    jsTrim "hello" ≠ ""
    ∧ (handleSendMessageStart "hello" false false false true 0 []).chatMessages
        = [offlineNoticeMessage 0] :=
  have h := c9_offline_submit "hello" true 0 [] (by decide)
  ⟨by decide, h.1.trans (by rfl)⟩

/-- C10: every store mutation (addUrl, removeUrl, addFiles, removeFile) makes
the welcome effect re-run — its `urlGroups` dependency is a freshly allocated
array on every mutation — so the transcript is reset to exactly one SYSTEM
welcome message, exactly as a switch of the active group does. -/
theorem c10_mutation_resets_transcript (hasApiKey : Bool) (now : Nat) (op : StoreOp)
    (st : AppState) (hmut : op.isMutation = true) :
    (applyStoreOp hasApiKey now op st).chatMessages
        = [welcomeMessage hasApiKey (applyStoreOp hasApiKey now op st).urlGroups
            (applyStoreOp hasApiKey now op st).activeUrlGroupId now]
    ∧ (welcomeMessage hasApiKey (applyStoreOp hasApiKey now op st).urlGroups
        (applyStoreOp hasApiKey now op st).activeUrlGroupId now).sender = MessageSender.system
    ∧ (∀ id, id ≠ st.activeUrlGroupId →
        (applyStoreOp hasApiKey now (StoreOp.setActiveGroup id) st).chatMessages
          = [welcomeMessage hasApiKey st.urlGroups id now]) := by
  refine ⟨?_, rfl, ?_⟩
  · have hv : st.groupsVersion + 1 ≠ st.groupsVersion := Nat.succ_ne_self _
    cases op with
    | addUrl url => simp [applyStoreOp, hv]
    | removeUrl url => simp [applyStoreOp, hv]
    | addFiles fs => simp [applyStoreOp, hv]
    | removeFile n => simp [applyStoreOp, hv]
    | setActiveGroup id => simp [StoreOp.isMutation] at hmut
  · intro id hid
    simp [applyStoreOp, hid]

theorem c10_mutation_resets_transcript_witness :
    StoreOp.isMutation (StoreOp.addUrl "https://a.example") = true
    ∧ (applyStoreOp true 7 (StoreOp.addUrl "https://a.example")
        ⟨[⟨"g1", "Group One", [], []⟩], 0, "g1", []⟩).chatMessages
      = [welcomeMessage true
          (applyStoreOp true 7 (StoreOp.addUrl "https://a.example")
            ⟨[⟨"g1", "Group One", [], []⟩], 0, "g1", []⟩).urlGroups
          (applyStoreOp true 7 (StoreOp.addUrl "https://a.example")
            ⟨[⟨"g1", "Group One", [], []⟩], 0, "g1", []⟩).activeUrlGroupId 7] :=
  ⟨by decide,
   (c10_mutation_resets_transcript true 7 (StoreOp.addUrl "https://a.example")
      ⟨[⟨"g1", "Group One", [], []⟩], 0, "g1", []⟩ (by decide)).1⟩
